import Mathlib

/-!
Verification of the date-to-quote resolution and history-management core of
the MorningMeditations repository (src/lambda/quote_loader.py,
src/lambda/quote_tracker.py, src/validate_quotes.py).

Python's `datetime` values are modelled as civil dates (year, month, day)
together with a sub-day tick count; ordering and `timedelta` arithmetic are
interpreted through the number of elapsed days since the civil epoch
(`daysFromCivil`, the standard days-from-civil algorithm), scaled to
microsecond ticks, which is exactly the ordering `datetime` implements.
`datetime.fromisoformat` is modelled on date-only strings `YYYY-MM-DD`
(the format the archive writes); any other string is unparsable.
-/

namespace MorningMeditations

/-- Gregorian leap-year test, as Python's calendar implements it. -/
def isLeapYear (y : Int) : Bool :=
  y % 4 == 0 && (y % 100 != 0 || y % 400 == 0)

/-- Length of a month in the given year (0 for an invalid month number). -/
def daysInMonth (y : Int) (m : Nat) : Nat :=
  if m = 1 then 31
  else if m = 2 then (if isLeapYear y then 29 else 28)
  else if m = 3 then 31
  else if m = 4 then 30
  else if m = 5 then 31
  else if m = 6 then 30
  else if m = 7 then 31
  else if m = 8 then 31
  else if m = 9 then 30
  else if m = 10 then 31
  else if m = 11 then 30
  else if m = 12 then 31
  else 0

/-- A civil calendar date, the date part of a Python `datetime`. -/
structure Date where
  year : Int
  month : Nat
  day : Nat
deriving DecidableEq

/-- A Python `datetime`: a civil date plus a sub-day time component
(`tick`, in microseconds; 0 for values parsed from date-only strings). -/
structure DateTime where
  date : Date
  tick : Nat
deriving DecidableEq

/-- Microseconds per day, the resolution of Python `datetime`. -/
def ticksPerDay : Int := 86400000000

/-- Days from the civil epoch 1970-01-01 to day 1 of the given month
(the month- and year-dependent part of Howard Hinnant's days-from-civil
algorithm, the semantics of the proleptic Gregorian calendar that Python
`datetime` uses). -/
def daysFromCivilMonth (year : Int) (month : Nat) : Int :=
  let y : Int := if month ≤ 2 then year - 1 else year
  let era : Int := (if 0 ≤ y then y else y - 399) / 400
  let yoe : Int := y - era * 400
  let mp : Int := ((month : Int) + 9) % 12
  let doe : Int := yoe * 365 + yoe / 4 - yoe / 100 + (153 * mp + 2) / 5
  era * 146097 + doe - 719468

/-- Number of days from the civil epoch 1970-01-01 to the given date. -/
def daysFromCivil (d : Date) : Int :=
  daysFromCivilMonth d.year d.month + (d.day : Int) - 1

/-- The absolute time value of a `datetime`, in microseconds since the
epoch: `datetime` comparison and `timedelta` arithmetic act on this value. -/
def toTicks (dt : DateTime) : Int :=
  daysFromCivil dt.date * ticksPerDay + (dt.tick : Int)

/-- Value of a decimal digit character, `none` for a non-digit. -/
def digitVal (c : Char) : Option Nat :=
  if c.isDigit then some (c.toNat - 48) else none

/-- Parse of the date-only format `YYYY-MM-DD`: component parse plus the
range checks of `datetime`'s constructor (month 1..12, day bounded by the
month's length in that year, year at least 1). -/
def parseDateOnly (s : String) : Option Date :=
  match s.data with
  | [c1, c2, c3, c4, h1, c5, c6, h2, c7, c8] =>
    if h1 = '-' ∧ h2 = '-' then
      match digitVal c1, digitVal c2, digitVal c3, digitVal c4,
            digitVal c5, digitVal c6, digitVal c7, digitVal c8 with
      | some a, some b, some c, some d, some e, some f, some g, some h =>
        let y : Int := ((a * 1000 + b * 100 + c * 10 + d : Nat) : Int)
        let m : Nat := e * 10 + f
        let day : Nat := g * 10 + h
        if 1 ≤ y ∧ 1 ≤ m ∧ m ≤ 12 ∧ 1 ≤ day ∧ day ≤ daysInMonth y m then
          some ⟨y, m, day⟩
        else none
      | _, _, _, _, _, _, _, _ => none
    else none
  | _ => none

/-- Model of `datetime.fromisoformat` on the date-only format `YYYY-MM-DD`
(the format the archive writes), producing a midnight `datetime`; returns
`none` for a string that does not parse (Python raises `ValueError`). -/
def fromisoformat (s : String) : Option DateTime :=
  (parseDateOnly s).map (fun d => ⟨d, 0⟩)

/-- Lowercase full month name, as `date.strftime('%B').lower()` produces
for the month numbers 1..12 a `datetime` can hold. -/
def monthName (m : Nat) : String :=
  if m = 1 then "january"
  else if m = 2 then "february"
  else if m = 3 then "march"
  else if m = 4 then "april"
  else if m = 5 then "may"
  else if m = 6 then "june"
  else if m = 7 then "july"
  else if m = 8 then "august"
  else if m = 9 then "september"
  else if m = 10 then "october"
  else if m = 11 then "november"
  else if m = 12 then "december"
  else ""

/-! ## The Reflection Archive (src/lambda/quote_tracker.py)

A history document is a JSON object that may or may not carry a `quotes`
key (`history.get('quotes', [])` tolerates its absence); each entry is an
object whose `date` key may be absent (`quote_entry['date']` then raises
`KeyError`, which the scans catch and skip). -/

/-- One archive entry, as `QuoteTracker.add_quote` builds it; `date = none`
models an entry object with no "date" key. -/
structure ArchiveEntry where
  date : Option String
  quote : String
  attribution : String
  theme : String
  reflection : String
deriving DecidableEq

/-- The history aggregate; `quotes = none` models a document with no
"quotes" key. -/
structure Archive where
  quotes : Option (List ArchiveEntry)
deriving DecidableEq

/-- Parsed date of an entry: `none` when the "date" key is missing
(`KeyError`) or the string fails `fromisoformat` (`ValueError`); both are
the cases the scanning loops catch and skip. -/
def entryDateTime (e : ArchiveEntry) : Option DateTime :=
  e.date.bind fromisoformat

/-- `QuoteTracker.add_quote`: ensures the quotes list exists and appends
one new entry built from the arguments (argument order as in the source:
date, quote, attribution, reflection, theme). -/
def add_quote (history : Archive) (date quote attribution reflection theme : String) :
    Archive :=
  let qs := history.quotes.getD []
  ⟨some (qs ++ [⟨some date, quote, attribution, theme, reflection⟩])⟩

/-- `QuoteTracker.get_quote_count`: `len(history.get('quotes', []))`. -/
def get_quote_count (history : Archive) : Nat :=
  (history.quotes.getD []).length

/-- `QuoteTracker.get_current_month_quotes`: keeps the entries whose parsed
date has the same month and year as `current_date` and strictly precedes
it; entries whose date is missing or unparsable are skipped. -/
def get_current_month_quotes (history : Archive) (current_date : DateTime) :
    List ArchiveEntry :=
  (history.quotes.getD []).filter (fun e =>
    match entryDateTime e with
    | some qd =>
        qd.date.month == current_date.date.month &&
        qd.date.year == current_date.date.year &&
        decide (toTicks qd < toTicks current_date)
    | none => false)

/-- `QuoteTracker.cleanup_old_quotes`: keeps the entries whose parsed date
is at least `now - timedelta(days=keep_days)`; entries whose date is
missing or unparsable are dropped. -/
def cleanup_old_quotes (history : Archive) (now : DateTime) (keep_days : Nat) :
    Archive :=
  ⟨some ((history.quotes.getD []).filter (fun e =>
    match entryDateTime e with
    | some qd => decide (toTicks now - (keep_days : Int) * ticksPerDay ≤ toTicks qd)
    | none => false))⟩

/-! ## Persistence (S3 history key + JSON document)

`save_history` serializes the history with `json.dumps` and puts it to the
history key; `load_history` gets the key and parses with `json.loads`.
The string round trip of `json.dumps`/`json.loads` is the identity on JSON
values, so the document is modelled at the JSON-value level (`Jv`); a byte
string that `json.loads` rejects is the `Doc.malformed` case. `Jv` carries
the string/array/object values the history needs (numbers, booleans and
null do not occur in documents the system writes and are outside the
model). -/

/-- A JSON value, as far as the history document needs. -/
inductive Jv where
  | str (s : String)
  | arr (items : List Jv)
  | obj (fields : List (String × Jv))

/-- Key lookup in a JSON object's field list. -/
def jvLookup (fields : List (String × Jv)) (k : String) : Option Jv :=
  (fields.find? (fun p => p.1 == k)).map (fun p => p.2)

/-- JSON form of one archive entry, keys in the order `add_quote` writes
them; an entry with no date is written without the "date" key. -/
def entryToJv (e : ArchiveEntry) : Jv :=
  .obj ((match e.date with
         | some d => [("date", Jv.str d)]
         | none => []) ++
        [("quote", Jv.str e.quote), ("attribution", Jv.str e.attribution),
         ("theme", Jv.str e.theme), ("reflection", Jv.str e.reflection)])

/-- Reading of one entry object under the spec's history document format
(the "date" key may be absent, the four text fields present strings).
This is the spec-side typed interpretation of a well-shaped entry; the
source's `load_history` performs no such per-entry check, so this function
appears only in theorem statements and round-trip lemmas, never inside
`load_history`. -/
def jvToEntry : Jv → Option ArchiveEntry
  | .obj fs =>
    match jvLookup fs "quote", jvLookup fs "attribution",
          jvLookup fs "theme", jvLookup fs "reflection" with
    | some (.str q), some (.str a), some (.str t), some (.str r) =>
      match jvLookup fs "date" with
      | some (.str d) => some ⟨some d, q, a, t, r⟩
      | none => some ⟨none, q, a, t, r⟩
      | some _ => none
    | _, _, _, _ => none
  | _ => none

/-- JSON form of the whole history document. -/
def historyToJv (h : Archive) : Jv :=
  .obj (match h.quotes with
        | some qs => [("quotes", Jv.arr (qs.map entryToJv))]
        | none => [])

/-- Decoding of a JSON array of entry objects; fails if any element is not
an entry object. -/
def decodeEntries : List Jv → Option (List ArchiveEntry)
  | [] => some []
  | j :: js =>
    match jvToEntry j, decodeEntries js with
    | some e, some es => some (e :: es)
    | _, _ => none

/-- Reading of the history document under the spec's document format: a
JSON object whose "quotes" key, when present, holds an array of entry
objects; absence of the key is tolerated. Like `jvToEntry`, this is the
spec-side typed interpretation saying which documents are well-shaped —
the source's `load_history` performs no shape validation and returns any
JSON object as-is, so this function is not part of `load_history`. -/
def jvToHistory : Jv → Option Archive
  | .obj fs =>
    match jvLookup fs "quotes" with
    | none => some ⟨none⟩
    | some (.arr items) => (decodeEntries items).map (fun es => ⟨some es⟩)
    | some _ => none
  | _ => none

/-- The bytes stored at the history key, as `json.loads` sees them. -/
inductive Doc where
  | malformed
  | json (j : Jv)

/-- Outcome of the `get_object` call on the history key. -/
inductive GetOutcome where
  | ok (d : Doc)
  | noSuchKey
  | clientError

/-- The Archive's failure, `ArchiveUnavailable` in the spec's taxonomy:
any exception `load_history` lets escape (a non-`NoSuchKey` `ClientError`
re-raised, the `json.loads` parse error on unparsable bytes, or the
attribute error raised by the quotes access when the parsed document is
not an object). -/
inductive ArchiveError where
  | archiveUnavailable
deriving DecidableEq

/-- `QuoteTracker.load_history`: a missing key yields the fresh empty
history document `{"quotes": []}`; any other `ClientError` is re-raised;
bytes that `json.loads` rejects raise out of the function, as does a
parsed document whose top level is not an object (the
`history.get('quotes', [])` access inside the `try` raises
`AttributeError`, which the `except ClientError` clause does not catch).
A JSON object document is returned as-is, with NO shape validation —
the source returns any dict regardless of the shape of its "quotes"
value, so the result is the raw document, not a checked `Archive`. -/
def load_history : GetOutcome → Except ArchiveError Jv
  | .noSuchKey => .ok (historyToJv ⟨some []⟩)
  | .clientError => .error .archiveUnavailable
  | .ok .malformed => .error .archiveUnavailable
  | .ok (.json (.obj fs)) => .ok (.obj fs)
  | .ok (.json (.str _)) => .error .archiveUnavailable
  | .ok (.json (.arr _)) => .error .archiveUnavailable

/-- `QuoteTracker.save_history` on its success path: the document the
single whole-history put writes. -/
def save_history (h : Archive) : Doc :=
  .json (historyToJv h)

/-! ## Trailing-window attribution query -/

/-- Modelled from the spec: no function under src/ implements the
`attributions_used_within(archive, days)` operation (nothing in the
repository computes a trailing-window attribution exclusion list), so it is
modelled from the spec's words: return the attribution field of every entry
whose parsed date is within `days` days of the current moment, inclusive
lower bound `now - days`; entries with a missing or unparsable date are
skipped. -/
def attributions_used_within (history : Archive) (days : Nat) (now : DateTime) :
    List String :=
  ((history.quotes.getD []).filter (fun e =>
    match entryDateTime e with
    | some qd => decide (toTicks now - (days : Int) * ticksPerDay ≤ toTicks qd)
    | none => false)).map (fun e => e.attribution)

/-! ## The Calendar Quote Resolver (src/lambda/quote_loader.py) -/

/-- One record of the 365-day dataset: integer day plus the three text
fields, as the dataset document format prescribes. -/
structure QuoteRecord where
  day : Nat
  theme : String
  quote : String
  attribution : String
deriving DecidableEq

/-- The dataset document: a mapping from lowercase month name to the
month's sequence of records (an association list models the JSON object's
unique keys). -/
def QuotesDb := List (String × List QuoteRecord)

/-- Result of a resolution: the record's quote, attribution and theme. -/
structure QuoteResult where
  quote : String
  attribution : String
  theme : String
deriving DecidableEq

/-- The Resolver's failures: the month-missing and day-missing raise sites
of `get_quote_for_date` (`MonthNotFound` / `DayNotFound` in the spec's
taxonomy). -/
inductive ResolveError where
  | monthNotFound
  | dayNotFound
deriving DecidableEq

/-- The day number the lookup uses: `date.day`, except that February 29
is folded to 28. -/
def normalizedDay (d : Date) : Nat :=
  if monthName d.month == "february" && d.day == 29 then 28 else d.day

/-- `QuoteLoader.get_quote_for_date`: derive the lowercase month name and
the (leap-folded) day number, require the month key to be present, and
return the fields of the first record of that month whose day matches. -/
def get_quote_for_date (db : QuotesDb) (date : DateTime) :
    Except ResolveError QuoteResult :=
  let month_name := monthName date.date.month
  let day_num := normalizedDay date.date
  match db.find? (fun p => p.1 == month_name) with
  | none => .error .monthNotFound
  | some p =>
    match p.2.find? (fun q => q.day == day_num) with
    | some q => .ok ⟨q.quote, q.attribution, q.theme⟩
    | none => .error .dayNotFound

/-- Resolution with no normalization at all (the spec-side comparison point
for the claim that February 29 is the only normalized date): look the raw
day number up in the named month. -/
def lookup_quote (db : QuotesDb) (month_name : String) (day_num : Nat) :
    Except ResolveError QuoteResult :=
  match db.find? (fun p => p.1 == month_name) with
  | none => .error .monthNotFound
  | some p =>
    match p.2.find? (fun q => q.day == day_num) with
    | some q => .ok ⟨q.quote, q.attribution, q.theme⟩
    | none => .error .dayNotFound

/-! ## Dataset integrity check
(`QuoteLoader.validate_database_completeness`; `validate_quotes.py` is the
same scan plus a required-fields pass that the record type makes vacuous) -/

/-- The twelve months with their canonical non-leap day counts, in the
iteration order of the source's `expected_days` dict. -/
def expected_days : List (String × Nat) :=
  [("january", 31), ("february", 28), ("march", 31), ("april", 30),
   ("may", 31), ("june", 30), ("july", 31), ("august", 31),
   ("september", 30), ("october", 31), ("november", 30), ("december", 31)]

/-- One step of a month's record scan: the state is the set of day numbers
seen so far (`days_found`, a list used only through membership) and the
duplicate days in encounter order; a day already seen is appended to the
duplicates before being re-added to the set. -/
def dayStep (acc : List Nat × List Nat) (q : QuoteRecord) : List Nat × List Nat :=
  if q.day ∈ acc.1 then (acc.1, acc.2 ++ [q.day])
  else (q.day :: acc.1, acc.2)

/-- One month's record scan: (days found, duplicate days). -/
def dayScan (mq : List QuoteRecord) : List Nat × List Nat :=
  mq.foldl dayStep ([], [])

/-- One month of the integrity check's accumulating pass over the state
(total record count, missing (month, day) pairs, duplicate (month, day)
pairs): a month key that is absent contributes all its days as missing; a
present month contributes its record count, its days of 1..n not found,
and its duplicates. -/
def valStep (db : QuotesDb) (acc : Nat × List (String × Nat) × List (String × Nat))
    (me : String × Nat) : Nat × List (String × Nat) × List (String × Nat) :=
  match db.find? (fun p => p.1 == me.1) with
  | none =>
    (acc.1, acc.2.1 ++ (List.range' 1 me.2).map (fun d => (me.1, d)), acc.2.2)
  | some p =>
    (acc.1 + p.2.length,
     acc.2.1 ++ ((List.range' 1 me.2).filter
       (fun d => decide (d ∉ (dayScan p.2).1))).map (fun d => (me.1, d)),
     acc.2.2 ++ (dayScan p.2).2.map (fun d => (me.1, d)))

/-- The integrity check's accumulating pass over the twelve expected
months. -/
def validateScan (db : QuotesDb) : Nat × List (String × Nat) × List (String × Nat) :=
  expected_days.foldl (valStep db) (0, [], [])

/-- Result record of the integrity check. -/
structure ValidationResult where
  complete : Bool
  total_quotes : Nat
  expected_quotes : Nat
  missing_days : List (String × Nat)
  duplicate_days : List (String × Nat)
deriving DecidableEq

/-- `QuoteLoader.validate_database_completeness`: run the scan and report;
complete iff nothing missing, nothing duplicated, and exactly 365 records
counted. -/
def validate_database_completeness (db : QuotesDb) : ValidationResult :=
  let s := validateScan db
  ⟨s.2.1.length == 0 && s.2.2.length == 0 && s.1 == 365,
   s.1, 365, s.2.1, s.2.2⟩

/-! ## Concrete fixtures -/

/-- A month's worth of placeholder records for days 1..n. -/
def fullMonth (n : Nat) : List QuoteRecord :=
  (List.range' 1 n).map (fun d => ⟨d, "t", "q", "a"⟩)

/-- A complete 365-record dataset. -/
def fullDb : QuotesDb :=
  expected_days.map (fun me => (me.1, fullMonth me.2))

/-- The complete dataset with the january day-5 record duplicated and the
march day-10 record removed: 365 records, one duplicate day, one missing
day. -/
def dbFlaw : QuotesDb :=
  expected_days.map (fun me =>
    if me.1 == "january" then (me.1, fullMonth me.2 ++ [⟨5, "t", "q", "a"⟩])
    else if me.1 == "march" then
      (me.1, (List.range' 1 me.2).filterMap (fun d =>
        if d = 10 then none else some ⟨d, "t", "q", "a"⟩))
    else (me.1, fullMonth me.2))

/-- The complete dataset with the november key removed entirely. -/
def dbNoNov : QuotesDb :=
  expected_days.filterMap (fun me =>
    if me.1 == "november" then none else some (me.1, fullMonth me.2))

/-- The eleven months other than november, with their day counts. -/
def monthsExceptNov : List (Nat × Nat) :=
  [(1, 31), (2, 28), (3, 31), (4, 30), (5, 31), (6, 30), (7, 31), (8, 31),
   (9, 30), (10, 31), (12, 31)]

/-- A february holding only a day-28 record. -/
def dbFeb : QuotesDb := [("february", [⟨28, "t28", "q28", "a28"⟩])]

/-- An april holding only a day-1 record (a day-level authoring gap). -/
def dbDayGap : QuotesDb := [("april", [⟨1, "t1", "q1", "a1"⟩])]

/-- An april holding two records for day 5. -/
def dbDup : QuotesDb :=
  [("april", [⟨5, "t1", "q1", "a1"⟩, ⟨5, "t2", "q2", "a2"⟩])]

/-- Archive fixture for the calendar-month query: entries dated the
reference day itself, earlier in the month, the month before, plus one
entry with no date and one with an unparsable date. -/
def histOct : Archive :=
  ⟨some [⟨some "2025-10-22", "q0", "a0", "t0", "r0"⟩,
         ⟨some "2025-10-05", "q1", "a1", "t1", "r1"⟩,
         ⟨some "2025-09-30", "q2", "a2", "t2", "r2"⟩,
         ⟨none, "q3", "a3", "t3", "r3"⟩,
         ⟨some "not-a-date", "q4", "a4", "t4", "r4"⟩]⟩

/-- The surviving entry of `histOct` under reference date 2025-10-22. -/
def eOct05 : ArchiveEntry := ⟨some "2025-10-05", "q1", "a1", "t1", "r1"⟩

/-- Archive fixture for pruning as of 2026-01-15: an entry dated 500 days
earlier (2024-09-02), one dated 100 days earlier (2025-10-07), and one
with no date. -/
def histPrune : Archive :=
  ⟨some [⟨some "2024-09-02", "qo", "Old Quote", "to", "ro"⟩,
         ⟨some "2025-10-07", "qr", "Recent Quote", "tr", "rr"⟩,
         ⟨none, "qn", "an", "tn", "rn"⟩]⟩

/-- The surviving entry of `histPrune` under a 400-day retention. -/
def eRecent : ArchiveEntry := ⟨some "2025-10-07", "qr", "Recent Quote", "tr", "rr"⟩

/-- Archive fixture for the trailing-window query as of 2026-01-15: an
entry dated 1 day earlier (2026-01-14) and one dated 400 days earlier
(2024-12-11). -/
def histWindow : Archive :=
  ⟨some [⟨some "2026-01-14", "qy", "Seneca", "ty", "ry"⟩,
         ⟨some "2024-12-11", "qe", "Epictetus", "te", "re"⟩]⟩

/-! ## Helper lemmas -/

/-- A parsed ISO date is a midnight `datetime`. -/
theorem fromisoformat_tick {s : String} {dt : DateTime}
    (h : fromisoformat s = some dt) : dt.tick = 0 := by
  unfold fromisoformat at h
  cases hp : parseDateOnly s with
  | none => rw [hp] at h; simp at h
  | some d => rw [hp] at h; simp at h; rw [← h]

/-- Dates of the same month and year compare by day number. -/
theorem daysFromCivil_lt_same_month {y : Int} {m d d' : Nat} :
    daysFromCivil ⟨y, m, d⟩ < daysFromCivil ⟨y, m, d'⟩ ↔ d < d' := by
  simp only [daysFromCivil]
  omega

/-- Midnight `datetime`s compare by their civil day count. -/
theorem toTicks_lt_of_dates {a b : Date} :
    toTicks ⟨a, 0⟩ < toTicks ⟨b, 0⟩ ↔ daysFromCivil a < daysFromCivil b := by
  have hpos : (0 : Int) < ticksPerDay := by decide
  simp only [toTicks, Nat.cast_zero, add_zero]
  exact mul_lt_mul_right hpos

/-- A month number beyond 12 renders as the empty name. -/
theorem monthName_big {m : Nat} (h : 13 ≤ m) : monthName m = "" := by
  unfold monthName
  repeat rw [if_neg (show ¬ _ by omega)]

/-- Only month number 2 renders as "february". -/
theorem monthName_eq_february {m : Nat} : monthName m = "february" ↔ m = 2 := by
  rcases Nat.lt_or_ge m 13 with hm | hm
  · interval_cases m <;> decide
  · rw [monthName_big hm]
    constructor
    · intro h
      exact absurd h (by decide)
    · omega

/-- Any date other than February 29 keeps its day number in the lookup. -/
theorem normalizedDay_eq {d : Date} (hd : ¬(d.month = 2 ∧ d.day = 29)) :
    normalizedDay d = d.day := by
  unfold normalizedDay
  rcases eq_or_ne d.day 29 with h29 | h29
  · have hm : d.month ≠ 2 := fun hm => hd ⟨hm, h29⟩
    have hf : monthName d.month ≠ "february" :=
      fun hf => hm (monthName_eq_february.mp hf)
    rw [if_neg]
    intro hc
    rw [Bool.and_eq_true, beq_iff_eq, beq_iff_eq] at hc
    exact hf hc.1
  · rw [if_neg]
    intro hc
    rw [Bool.and_eq_true, beq_iff_eq, beq_iff_eq] at hc
    exact h29 hc.2

/-- An entry's parsed date is a midnight `datetime`. -/
theorem entryDateTime_tick {e : ArchiveEntry} {qd : DateTime}
    (h : entryDateTime e = some qd) : qd.tick = 0 := by
  unfold entryDateTime at h
  cases hd : e.date with
  | none => rw [hd] at h; simp at h
  | some s => rw [hd] at h; exact fromisoformat_tick h

/-- JSON encode/decode round trip of one entry. -/
theorem jv_entry_roundtrip (e : ArchiveEntry) : jvToEntry (entryToJv e) = some e := by
  obtain ⟨d, q, a, t, r⟩ := e
  cases d <;> rfl

/-- JSON encode/decode round trip of an entry list. -/
theorem jv_entries_roundtrip (qs : List ArchiveEntry) :
    decodeEntries (qs.map entryToJv) = some qs := by
  induction qs with
  | nil => rfl
  | cons e qs ih => simp [decodeEntries, jv_entry_roundtrip, ih]

/-- Saving a history whose quotes list is present and loading the stored
document returns exactly that document. -/
theorem load_save (qs : List ArchiveEntry) :
    load_history (.ok (save_history ⟨some qs⟩)) = .ok (historyToJv ⟨some qs⟩) := rfl

/-- The spec-format reading of a saved history document recovers the
history: the value-level JSON round trip. -/
theorem jv_history_roundtrip (qs : List ArchiveEntry) :
    jvToHistory (historyToJv ⟨some qs⟩) = some ⟨some qs⟩ := by
  simp [historyToJv, jvToHistory, jvLookup, List.find?, jv_entries_roundtrip]

/-- The inputs of one append: (date, quote, attribution, reflection, theme),
in the argument order of `add_quote`. -/
def NewQuote := String × String × String × String × String

/-- Fold a batch of appends over a history, as repeated daily runs do. -/
def appendAll (history : Archive) (items : List NewQuote) : Archive :=
  items.foldl (fun acc i => add_quote acc i.1 i.2.1 i.2.2.1 i.2.2.2.1 i.2.2.2.2)
    history

/-- The entry one append input produces. -/
def mkEntry (i : NewQuote) : ArchiveEntry :=
  ⟨some i.1, i.2.1, i.2.2.1, i.2.2.2.2, i.2.2.2.1⟩

/-- Appending a batch to a present quotes list appends the corresponding
entries in order. -/
theorem appendAll_quotes (items : List NewQuote) :
    ∀ qs : List ArchiveEntry,
      appendAll ⟨some qs⟩ items = ⟨some (qs ++ items.map mkEntry)⟩ := by
  induction items with
  | nil => intro qs; simp [appendAll]
  | cons i items ih =>
    intro qs
    have hstep : appendAll ⟨some qs⟩ (i :: items)
        = appendAll ⟨some (qs ++ [mkEntry i])⟩ items := rfl
    rw [hstep, ih]
    simp [mkEntry]

/-- `List.find?` returns the first match: with no match in the prefix and a
matching element next, it returns that element. -/
theorem find?_first {α : Type} (p : α → Bool) :
    ∀ (pre : List α) (r : α) (post : List α),
      (∀ q ∈ pre, p q = false) → p r = true →
      (pre ++ r :: post).find? p = some r := by
  intro pre
  induction pre with
  | nil =>
    intro r post _ hr
    simp [List.find?, hr]
  | cons a pre ih =>
    intro r post hpre hr
    have ha : p a = false := hpre a (by simp)
    simp only [List.cons_append, List.find?, ha]
    exact ih r post (fun q hq => hpre q (by simp [hq])) hr

/-- Each record scanned grows found-days plus duplicates by exactly one. -/
theorem foldl_dayStep_len (mq : List QuoteRecord) :
    ∀ acc : List Nat × List Nat,
      (mq.foldl dayStep acc).1.length + (mq.foldl dayStep acc).2.length
        = acc.1.length + acc.2.length + mq.length := by
  induction mq with
  | nil => intro acc; simp
  | cons q mq ih =>
    intro acc
    rw [List.foldl_cons, ih]
    unfold dayStep
    split <;> simp <;> omega

/-- A filter for membership in a list cannot exceed that list's length,
when the filtered list has no duplicates. -/
theorem length_filter_mem_le (l f : List Nat) (hl : l.Nodup) :
    (l.filter (fun d => decide (d ∈ f))).length ≤ f.length := by
  have hnd : (l.filter (fun d => decide (d ∈ f))).Nodup := hl.filter _
  have hsub : (l.filter (fun d => decide (d ∈ f))).toFinset ⊆ f.toFinset := by
    intro x hx
    rw [List.mem_toFinset] at hx ⊢
    have := List.mem_filter.mp hx
    exact of_decide_eq_true this.2
  calc (l.filter (fun d => decide (d ∈ f))).length
      = (l.filter (fun d => decide (d ∈ f))).toFinset.card :=
        (List.toFinset_card_of_nodup hnd).symm
    _ ≤ f.toFinset.card := Finset.card_le_card hsub
    _ ≤ f.length := List.toFinset_card_le f

/-- Splitting a list's length by a Boolean predicate. -/
theorem length_filter_split (l : List Nat) (p : Nat → Bool) :
    (l.filter p).length + (l.filter (fun x => !(p x))).length = l.length := by
  induction l with
  | nil => rfl
  | cons a l ih =>
    by_cases h : p a = true
    · simp [List.filter, h, ih]
      omega
    · rw [Bool.not_eq_true] at h
      simp [List.filter, h, ih]
      omega

/-- Per-month bound of the integrity scan: the month's expected day count
plus its duplicates is at most its record count plus its missing days. -/
theorem month_scan_bound (mq : List QuoteRecord) (n : Nat) :
    n + (dayScan mq).2.length ≤
      mq.length +
        ((List.range' 1 n).filter (fun d => decide (d ∉ (dayScan mq).1))).length := by
  have hlen : (dayScan mq).1.length + (dayScan mq).2.length = mq.length := by
    have := foldl_dayStep_len mq ([], [])
    simpa [dayScan] using this
  have hsplit := length_filter_split (List.range' 1 n)
    (fun d => decide (d ∈ (dayScan mq).1))
  have hmem := length_filter_mem_le (List.range' 1 n) (dayScan mq).1
    (List.nodup_range' 1 n)
  have hrlen : (List.range' 1 n).length = n := List.length_range' 1 1 n
  have hpred : (List.range' 1 n).filter (fun d => decide (d ∉ (dayScan mq).1))
      = (List.range' 1 n).filter (fun d => !(decide (d ∈ (dayScan mq).1))) := by
    simp [decide_not]
  rw [hpred]
  omega

/-- Dates of the same month and year at midnight compare by day number. -/
theorem ticks_lt_same_month {y : Int} {m d d' : Nat} :
    toTicks ⟨⟨y, m, d⟩, 0⟩ < toTicks ⟨⟨y, m, d'⟩, 0⟩ ↔ d < d' :=
  toTicks_lt_of_dates.trans daysFromCivil_lt_same_month

/-- The retention-window predicate of the scans, as a parse-and-compare
existential. -/
theorem window_pred_iff (now : DateTime) (k : Nat) (e : ArchiveEntry) :
    ((match entryDateTime e with
      | some qd => decide (toTicks now - (k : Int) * ticksPerDay ≤ toTicks qd)
      | none => false) = true) ↔
    ∃ qd : DateTime, entryDateTime e = some qd ∧
      toTicks now - (k : Int) * ticksPerDay ≤ toTicks qd := by
  cases hq : entryDateTime e <;> simp [hq]

/-! ## Claims -/

/-- C2: for every archive and reference date, the calendar-month query
returns exactly the entries of the archive whose parsed date has the
reference date's month and year and a strictly smaller day (same-day
entries excluded); entries with a missing or unparsable date are skipped
without aborting the scan. Concretely, with reference date 2025-10-22 the
query keeps the 2025-10-05 entry and drops the 2025-10-22 and 2025-09-30
entries as well as the dateless and unparsable ones. -/
theorem c2_entries_for_month :
    (∀ (h : Archive) (curd : Date) (e : ArchiveEntry),
      e ∈ get_current_month_quotes h ⟨curd, 0⟩ ↔
        e ∈ h.quotes.getD [] ∧ ∃ qd : DateTime,
          entryDateTime e = some qd ∧ qd.date.month = curd.month ∧
          qd.date.year = curd.year ∧ qd.date.day < curd.day) ∧
    get_current_month_quotes histOct ⟨⟨2025, 10, 22⟩, 0⟩ = [eOct05] := by
  constructor
  · intro h curd e
    obtain ⟨cy, cm, cd⟩ := curd
    rw [get_current_month_quotes, List.mem_filter]
    refine and_congr_right (fun _ => ?_)
    cases hq : entryDateTime e with
    | none => simp [hq]
    | some qd =>
      obtain ⟨⟨qy, qm, qdy⟩, qt⟩ := qd
      have ht : qt = 0 := entryDateTime_tick hq
      subst ht
      simp only [hq, Bool.and_eq_true, beq_iff_eq, decide_eq_true_eq,
        Option.some.injEq]
      constructor
      · rintro ⟨⟨hm, hy⟩, hlt⟩
        subst hm
        subst hy
        exact ⟨_, rfl, rfl, rfl, ticks_lt_same_month.mp hlt⟩
      · rintro ⟨qd', hq', hm, hy, hdl⟩
        obtain ⟨⟨q2y, q2m, q2d⟩, q2t⟩ := qd'
        cases hq'
        subst hm
        subst hy
        exact ⟨⟨rfl, rfl⟩, ticks_lt_same_month.mpr hdl⟩
  · rfl

/-- C3: pruning keeps exactly the entries whose parsed date is no older
than `now` minus the retention window, and drops every entry with a
missing or unparsable date. Concretely, as of 2026-01-15 with a 400-day
retention, the entry dated 500 days earlier is removed, the entry dated
100 days earlier is retained, and the count drops from 3 to 1. -/
theorem c3_prune :
    (∀ (h : Archive) (now : DateTime) (keep_days : Nat) (e : ArchiveEntry),
      e ∈ (cleanup_old_quotes h now keep_days).quotes.getD [] ↔
        e ∈ h.quotes.getD [] ∧ ∃ qd : DateTime,
          entryDateTime e = some qd ∧
          toTicks now - (keep_days : Int) * ticksPerDay ≤ toTicks qd) ∧
    cleanup_old_quotes histPrune ⟨⟨2026, 1, 15⟩, 0⟩ 400 = ⟨some [eRecent]⟩ ∧
    get_quote_count histPrune = 3 ∧
    get_quote_count (cleanup_old_quotes histPrune ⟨⟨2026, 1, 15⟩, 0⟩ 400) = 1 := by
  refine ⟨?_, by rfl, by rfl, by rfl⟩
  intro h now k e
  show e ∈ (h.quotes.getD []).filter _ ↔ _
  rw [List.mem_filter]
  exact and_congr_right (fun _ => window_pred_iff now k e)

/-- C1: the trailing-window query returns the attributions of exactly
those entries whose parsed date is at least `now` minus the window
(entries with a missing or unparsable date are skipped). Concretely, as
of 2026-01-15 with a 365-day window, the attribution of the entry dated 1
day earlier is returned and that of the entry dated 400 days earlier is
not. -/
theorem c1_attributions_used_within :
    (∀ (h : Archive) (days : Nat) (now : DateTime) (a : String),
      a ∈ attributions_used_within h days now ↔
        ∃ e, (e ∈ h.quotes.getD [] ∧ ∃ qd : DateTime,
          entryDateTime e = some qd ∧
          toTicks now - (days : Int) * ticksPerDay ≤ toTicks qd) ∧
          e.attribution = a) ∧
    attributions_used_within histWindow 365 ⟨⟨2026, 1, 15⟩, 0⟩ = ["Seneca"] := by
  constructor
  · intro h days now a
    rw [attributions_used_within, List.mem_map]
    constructor
    · rintro ⟨e, he, rfl⟩
      rw [List.mem_filter] at he
      exact ⟨e, ⟨he.1, (window_pred_iff now days e).mp he.2⟩, rfl⟩
    · rintro ⟨e, ⟨he, hw⟩, rfl⟩
      exact ⟨e, List.mem_filter.mpr ⟨he, (window_pred_iff now days e).mpr hw⟩, rfl⟩
  · rfl

/-- C9: one append returns the archive with exactly one new entry holding
the given field values at the end of the sequence (a pure function of the
in-memory aggregate), and appending twice with the same inputs produces
two entries — no deduplication. -/
theorem c9_append :
    ∀ (h : Archive) (d q a r t : String),
      add_quote h d q a r t = ⟨some (h.quotes.getD [] ++ [⟨some d, q, a, t, r⟩])⟩ ∧
      add_quote (add_quote h d q a r t) d q a r t
        = ⟨some (h.quotes.getD [] ++ [⟨some d, q, a, t, r⟩, ⟨some d, q, a, t, r⟩])⟩ := by
  intro h d q a r t
  refine ⟨rfl, ?_⟩
  simp [add_quote]

/-- C5: appending a batch of N inputs to the empty archive yields the N
corresponding entries in order; saving and reloading returns exactly the
document of those N entries, whose spec-format reading is exactly the
archive holding them with identical fields in append order; and the count
is N. -/
theorem c5_append_save_load :
    ∀ items : List NewQuote,
      appendAll ⟨some []⟩ items = ⟨some (items.map mkEntry)⟩ ∧
      load_history (.ok (save_history (appendAll ⟨some []⟩ items)))
        = .ok (historyToJv ⟨some (items.map mkEntry)⟩) ∧
      jvToHistory (historyToJv ⟨some (items.map mkEntry)⟩)
        = some ⟨some (items.map mkEntry)⟩ ∧
      get_quote_count (appendAll ⟨some []⟩ items) = items.length := by
  intro items
  have h1 := appendAll_quotes items []
  simp only [List.nil_append] at h1
  refine ⟨h1, ?_, jv_history_roundtrip _, ?_⟩
  · rw [h1]
    exact load_save _
  · rw [h1]
    simp [get_quote_count]

/-- Counterexample for C6's malformed-document clause: the document
`{"quotes": "hello"}` is malformed under the spec's history document
format (its spec-format reading fails), yet `load_history` returns it as
loaded history instead of failing — the source performs no shape
validation on a JSON object document. -/
theorem c6_counterexample :
    jvToHistory (Jv.obj [("quotes", Jv.str "hello")]) = none ∧
    load_history (.ok (.json (Jv.obj [("quotes", Jv.str "hello")])))
      = .ok (Jv.obj [("quotes", Jv.str "hello")]) :=
  ⟨rfl, rfl⟩

/-- C6 (amended): loading when the history key does not exist returns the
empty history document, whose reading is the archive with a present,
empty quotes list; any other retrieval failure fails, as do bytes that
are not valid JSON and valid JSON whose top level is not an object; but a
JSON object document is returned without shape validation, whatever its
"quotes" value holds. -/
theorem c6_load :
    load_history .noSuchKey = .ok (historyToJv ⟨some []⟩) ∧
    jvToHistory (historyToJv ⟨some []⟩) = some ⟨some []⟩ ∧
    load_history .clientError = .error .archiveUnavailable ∧
    load_history (.ok .malformed) = .error .archiveUnavailable ∧
    (∀ s : String, load_history (.ok (.json (.str s))) = .error .archiveUnavailable) ∧
    (∀ xs : List Jv, load_history (.ok (.json (.arr xs))) = .error .archiveUnavailable) ∧
    (∀ fs : List (String × Jv), load_history (.ok (.json (.obj fs))) = .ok (.obj fs)) :=
  ⟨rfl, rfl, rfl, rfl, fun _ => rfl, fun _ => rfl, fun _ => rfl⟩

/-- C4: resolving February 29 of a leap year returns exactly what resolving
February 28 of any year returns, on the same dataset; and for any date
other than February 29 the lookup is the unnormalized one — no other date
is normalized. -/
theorem c4_leap_day (db : QuotesDb) (y y' : Int) (t t' : Nat)
    (hy : isLeapYear y = true) :
    get_quote_for_date db ⟨⟨y, 2, 29⟩, t⟩ = get_quote_for_date db ⟨⟨y', 2, 28⟩, t'⟩ ∧
    ∀ d : DateTime, ¬(d.date.month = 2 ∧ d.date.day = 29) →
      get_quote_for_date db d = lookup_quote db (monthName d.date.month) d.date.day := by
  constructor
  · rfl
  · intro d hd
    simp only [get_quote_for_date, lookup_quote, normalizedDay_eq hd]

/-- Witness for C4: the leap-year hypothesis and the conclusion at a
concrete february dataset and concrete years. -/
theorem c4_leap_day_witness :
    isLeapYear 2024 = true ∧
    (get_quote_for_date dbFeb ⟨⟨2024, 2, 29⟩, 0⟩
        = get_quote_for_date dbFeb ⟨⟨2023, 2, 28⟩, 5⟩ ∧
     ∀ d : DateTime, ¬(d.date.month = 2 ∧ d.date.day = 29) →
       get_quote_for_date dbFeb d
         = lookup_quote dbFeb (monthName d.date.month) d.date.day) :=
  ⟨by decide, c4_leap_day dbFeb 2024 2023 0 5 (by decide)⟩

/-- Decidable equality of resolution outcomes, for evaluating concrete
datasets. -/
instance : DecidableEq (Except ResolveError QuoteResult) := fun a b =>
  match a, b with
  | .ok x, .ok y => decidable_of_iff (x = y) (by simp)
  | .error x, .error y => decidable_of_iff (x = y) (by simp)
  | .ok _, .error _ => isFalse (by simp)
  | .error _, .ok _ => isFalse (by simp)

/-- C8: resolution fails with the month error exactly when the normalized
month name is not a key of the dataset, and with the day error when the
month is present but holds no record for the normalized day. Concretely,
on the dataset missing november entirely, every November date fails with
the month error and every date of the other eleven (complete) months
succeeds. -/
theorem c8_missing_month :
    (∀ (db : QuotesDb) (d : DateTime),
      db.find? (fun p => p.1 == monthName d.date.month) = none →
      get_quote_for_date db d = .error .monthNotFound) ∧
    (∀ (db : QuotesDb) (d : DateTime) (p : String × List QuoteRecord),
      db.find? (fun p => p.1 == monthName d.date.month) = some p →
      p.2.find? (fun q => q.day == normalizedDay d.date) = none →
      get_quote_for_date db d = .error .dayNotFound) ∧
    (∀ day ∈ List.range' 1 30,
      get_quote_for_date dbNoNov ⟨⟨2025, 11, day⟩, 0⟩ = .error .monthNotFound) ∧
    (∀ mc ∈ monthsExceptNov, ∀ day ∈ List.range' 1 mc.2,
      get_quote_for_date dbNoNov ⟨⟨2025, mc.1, day⟩, 0⟩ = .ok ⟨"q", "a", "t"⟩) := by
  refine ⟨?_, ?_, by decide, by decide⟩
  · intro db d hfind
    simp only [get_quote_for_date]
    rw [hfind]
  · intro db d p hfind hday
    simp only [get_quote_for_date]
    rw [hfind]
    dsimp only
    rw [hday]

/-- Witness for C8: the two failure modes at concrete datasets, hypotheses
discharged by evaluation. -/
theorem c8_missing_month_witness :
    (dbNoNov.find?
        (fun p => p.1 == monthName (⟨⟨2025, 11, 15⟩, 0⟩ : DateTime).date.month) = none ∧
     get_quote_for_date dbNoNov ⟨⟨2025, 11, 15⟩, 0⟩ = .error .monthNotFound) ∧
    (dbDayGap.find?
        (fun p => p.1 == monthName (⟨⟨2025, 4, 2⟩, 0⟩ : DateTime).date.month)
        = some ("april", [⟨1, "t1", "q1", "a1"⟩]) ∧
     ([⟨1, "t1", "q1", "a1"⟩] : List QuoteRecord).find?
        (fun q => q.day == normalizedDay (⟨⟨2025, 4, 2⟩, 0⟩ : DateTime).date) = none ∧
     get_quote_for_date dbDayGap ⟨⟨2025, 4, 2⟩, 0⟩ = .error .dayNotFound) :=
  ⟨⟨by rfl, c8_missing_month.1 dbNoNov ⟨⟨2025, 11, 15⟩, 0⟩ (by rfl)⟩,
   ⟨by rfl, by rfl,
    c8_missing_month.2.1 dbDayGap ⟨⟨2025, 4, 2⟩, 0⟩ ("april", [⟨1, "t1", "q1", "a1"⟩])
      (by rfl) (by rfl)⟩⟩

/-- C10: when a month's sequence holds several records for the same day
number, resolution does not fail: it returns the fields of the first
record in sequence order whose day matches the normalized day. -/
theorem c10_first_match :
    ∀ (db : QuotesDb) (d : DateTime) (nm : String) (pre post : List QuoteRecord)
      (r : QuoteRecord),
      db.find? (fun p => p.1 == monthName d.date.month) = some (nm, pre ++ r :: post) →
      (∀ q ∈ pre, (q.day == normalizedDay d.date) = false) →
      (r.day == normalizedDay d.date) = true →
      get_quote_for_date db d = .ok ⟨r.quote, r.attribution, r.theme⟩ := by
  intro db d nm pre post r hfind hpre hr
  simp only [get_quote_for_date]
  rw [hfind]
  dsimp only
  rw [find?_first _ pre r post hpre hr]

/-- Witness for C10: an april with two day-5 records resolves April 5 to
the first of them. -/
theorem c10_first_match_witness :
    dbDup.find?
        (fun p => p.1 == monthName (⟨⟨2025, 4, 5⟩, 0⟩ : DateTime).date.month)
      = some ("april",
          [] ++ (⟨5, "t1", "q1", "a1"⟩ : QuoteRecord) :: [⟨5, "t2", "q2", "a2"⟩]) ∧
    get_quote_for_date dbDup ⟨⟨2025, 4, 5⟩, 0⟩ = .ok ⟨"q1", "a1", "t1"⟩ :=
  ⟨by rfl,
   c10_first_match dbDup ⟨⟨2025, 4, 5⟩, 0⟩ "april" [] [⟨5, "t2", "q2", "a2"⟩]
     ⟨5, "t1", "q1", "a1"⟩ (by rfl) (by simp) (by rfl)⟩

/-- One month of the integrity scan respects the counting bound: expected
days plus new duplicates is at most new records plus new missing days. -/
theorem valStep_bound (db : QuotesDb)
    (acc : Nat × List (String × Nat) × List (String × Nat)) (me : String × Nat) :
    me.2 + (valStep db acc me).2.2.length + acc.1 + acc.2.1.length ≤
      (valStep db acc me).1 + (valStep db acc me).2.1.length + acc.2.2.length := by
  unfold valStep
  cases hf : db.find? (fun p => p.1 == me.1) with
  | none =>
    simp [List.length_append, List.length_map, List.length_range']
    omega
  | some p =>
    have hb := month_scan_bound p.2 me.2
    simp only [List.length_append, List.length_map]
    omega

/-- The integrity scan's counting bound, folded over any month list. -/
theorem foldl_valStep_bound (db : QuotesDb) (ms : List (String × Nat)) :
    ∀ acc : Nat × List (String × Nat) × List (String × Nat),
      (ms.map (fun me => me.2)).sum + (ms.foldl (valStep db) acc).2.2.length
          + acc.1 + acc.2.1.length ≤
        (ms.foldl (valStep db) acc).1 + (ms.foldl (valStep db) acc).2.1.length
          + acc.2.2.length := by
  induction ms with
  | nil =>
    intro acc
    simp
    omega
  | cons me ms ih =>
    intro acc
    have h1 := valStep_bound db acc me
    have h2 := ih (valStep db acc me)
    rw [List.foldl_cons]
    simp only [List.map_cons, List.sum_cons]
    omega

/-- Global counting bound of the integrity check: 365 plus the number of
reported duplicates never exceeds the total record count plus the number
of reported missing days. In particular a report of 364 records with
exactly one missing day and one duplicate day is impossible. -/
theorem validate_lower_bound (db : QuotesDb) :
    365 + (validate_database_completeness db).duplicate_days.length ≤
      (validate_database_completeness db).total_quotes +
        (validate_database_completeness db).missing_days.length := by
  have h := foldl_valStep_bound db expected_days (0, [], [])
  have hsum : (expected_days.map (fun me => me.2)).sum = 365 := by decide
  simp only [validate_database_completeness, validateScan]
  simp only [hsum] at h
  simpa using h

/-- Counterexample for C7's concrete scenario: no dataset at all can make
the integrity check report 364 total records together with exactly one
missing day and exactly one duplicate day. -/
theorem c7_counterexample :
    ¬ ∃ db : QuotesDb,
      (validate_database_completeness db).total_quotes = 364 ∧
      (validate_database_completeness db).missing_days.length = 1 ∧
      (validate_database_completeness db).duplicate_days.length = 1 := by
  rintro ⟨db, h1, h2, h3⟩
  have := validate_lower_bound db
  omega

set_option maxRecDepth 100000 in
/-- C7 (amended): for every dataset, the integrity check reports complete
exactly when there are no missing days, no duplicate days, and the total
record count is 365; and over the 365-entry dataset with the january-5
record duplicated and the march-10 record missing, it reports incomplete
together with the specific missing day (march, 10) and the specific
duplicate day (january, 5). -/
theorem c7_validate_completeness :
    (∀ db : QuotesDb,
      (validate_database_completeness db).complete = true ↔
        (validate_database_completeness db).missing_days = [] ∧
        (validate_database_completeness db).duplicate_days = [] ∧
        (validate_database_completeness db).total_quotes = 365) ∧
    ((validate_database_completeness dbFlaw).complete = false ∧
     (validate_database_completeness dbFlaw).total_quotes = 365 ∧
     (validate_database_completeness dbFlaw).missing_days = [("march", 10)] ∧
     (validate_database_completeness dbFlaw).duplicate_days = [("january", 5)]) := by
  constructor
  · intro db
    simp [validate_database_completeness, Bool.and_eq_true, List.length_eq_zero,
      and_assoc]
  · exact ⟨by decide, by decide, by decide, by decide⟩

end MorningMeditations
